import Mathlib

/-! Verification of `csm`, a small on-screen system monitor.

Shallow embedding of `src/csm.go`: the three samplers (`batteryItem`, `cpuItem`,
`memoryItem`), the partial redraw `Item.update` and the event loop of `main`, followed
by the theorems about them.

Conventions.
* `uint64` values are natural numbers; every arithmetic operation of the source
  is reduced modulo `2 ^ 64` explicitly.
* A run-time fault of the source (integer division by zero, index out of range)
  is the result `none`.
* The text read from a file is the list of its characters (valid UTF-8). The byte loop
  of the battery scanner only looks for `=` and newline, which never occur inside a
  multi-byte character, so its slices are the same strings.
* Calls into the drawing library are recorded, in order, as `DrawOp` values.
-/

namespace Csm

/-! ## Machine arithmetic -/

/-- The modulus of `uint64` arithmetic. -/
def wrap : Nat := 2 ^ 64

/-- Multiplication of two `uint64` values. -/
def mul64 (a b : Nat) : Nat := (a * b) % wrap

/-- Addition of two `uint64` values. -/
def add64 (a b : Nat) : Nat := (a + b) % wrap

/-- Subtraction of two `uint64` values: it wraps around below zero. -/
def sub64 (a b : Nat) : Nat := (a + (wrap - b % wrap)) % wrap

/-- Integer division of the source: dividing by zero is a run-time fault. -/
def div64 (a b : Nat) : Option Nat := if b = 0 then none else some (a / b)

/-! ## Formatting (`fmt.Sprintf`) -/

/-- The verb `%v` applied to a `uint64`: the decimal digits. -/
def fmtV (u : Nat) : String := Nat.repr u

/-- Left padding of `s` with the character `c` up to `w` characters. -/
def padLeft (c : Char) (w : Nat) (s : String) : String :=
  String.mk (List.replicate (w - s.data.length) c) ++ s

/-- The verb `%3v` (any width `w`) applied to a `uint64`: right-aligned in a field of
`w` characters, padded with blanks. -/
def fmtWidth (w : Nat) (u : Nat) : String := padLeft ' ' w (fmtV u)

/-- The verb `%02v` (any width `w`) applied to a `uint64`: padded with zeros on
the left up to `w` digits. -/
def fmtZero (w : Nat) (u : Nat) : String := padLeft '0' w (fmtV u)

/-! ## Scanning (`fmt.Sscan` into a `uint64`, `strings.Fields`)

These two functions belong to the Go library, not to the repository. They are
written after `fmt/scan.go` and `strconv/atoi.go` (verb `%v`, base prefixes and
digit-separating underscores included) and `strings.Fields`. -/

/-- White space (`unicode.IsSpace`, which is also the `isSpace` of `fmt`). -/
def isSpace (c : Char) : Bool :=
  let n := c.toNat
  (9 ≤ n && n ≤ 13) || n == 32 || n == 0x85 || n == 0xA0 || n == 0x1680 ||
  (0x2000 ≤ n && n ≤ 0x200a) || n == 0x2028 || n == 0x2029 || n == 0x202f ||
  n == 0x205f || n == 0x3000

/-- The largest `uint64`. -/
def maxUint64 : Nat := 2 ^ 64 - 1

/-- Membership of a character in a digit string of the scanner. -/
def accepts (digits : String) (c : Char) : Bool := digits.data.contains c

/-- The token `scanUint` collects for the verb `%v`: `scanBasePrefix` followed by
`scanNumber`. The input has no leading white space any more. `none` is the error
`expected integer` (or an unexpected end of input). -/
def scanToken : List Char → Option (List Char)
  | [] => none
  | c :: rest =>
    if c = '0' then
      match rest with
      | [] => some [c]
      | p :: rest2 =>
        if accepts "bB" p then some (c :: p :: rest2.takeWhile (accepts "01_"))
        else if accepts "oO" p then some (c :: p :: rest2.takeWhile (accepts "01234567_"))
        else if accepts "xX" p then
          some (c :: p :: rest2.takeWhile (accepts "0123456789aAbBcCdDeEfF_"))
        else some (c :: rest.takeWhile (accepts "01234567_"))
    else if accepts "0123456789_" c then
      some (c :: rest.takeWhile (accepts "0123456789_"))
    else none

/-- The function `lower` of `strconv`: the ASCII letter in lower case. -/
def lower (c : Char) : Nat := c.toNat ||| 32

/-- The value of one digit in `strconv.ParseUint`, before the comparison with the base. -/
def digitVal (c : Char) : Option Nat :=
  if 48 ≤ c.toNat ∧ c.toNat ≤ 57 then some (c.toNat - 48)
  else if 97 ≤ lower c ∧ lower c ≤ 122 then some (lower c - 97 + 10)
  else none

/-- The digit loop of `strconv.ParseUint` (base argument 0, 64 bits): `none` is a syntax
or range error. Underscores are skipped here and checked by `underscoreOK`. -/
def parseLoop (base : Nat) : List Char → Nat → Option Nat
  | [], n => some n
  | c :: cs, n =>
    if c = '_' then parseLoop base cs n
    else
      match digitVal c with
      | none => none
      | some d =>
        if d ≥ base then none
        else if n ≥ maxUint64 / base + 1 then none
        else if n * base + d > maxUint64 then none
        else parseLoop base cs (n * base + d)

/-- The loop of `underscoreOK`: `saw` is the kind of the last character seen. -/
def underscoreLoop (hex : Bool) : List Char → Char → Bool
  | [], saw => saw != '_'
  | c :: cs, saw =>
    if (48 ≤ c.toNat ∧ c.toNat ≤ 57) ∨ (hex = true ∧ 97 ≤ lower c ∧ lower c ≤ 102) then
      underscoreLoop hex cs '0'
    else if c = '_' then
      if saw != '0' then false else underscoreLoop hex cs '_'
    else if saw = '_' then false
    else underscoreLoop hex cs '!'

/-- The check `underscoreOK` of `strconv`: underscores only between digits or between
a base prefix and a digit. (The tokens of `scanToken` carry no sign.) -/
def underscoreOK (s : List Char) : Bool :=
  match s with
  | c :: p :: rest =>
    if c = '0' ∧ (lower p = 98 ∨ lower p = 111 ∨ lower p = 120) then
      underscoreLoop (lower p == 120) rest '0'
    else underscoreLoop false s '^'
  | _ => underscoreLoop false s '^'

/-- The call `strconv.ParseUint(tok, 0, 64)`. -/
def ParseUint (tok : List Char) : Option Nat :=
  match tok with
  | [] => none
  | c :: rest =>
    let r :=
      if c = '0' then
        match rest with
        | p :: q :: rest2 =>
          if lower p = 98 then parseLoop 2 (q :: rest2) 0
          else if lower p = 111 then parseLoop 8 (q :: rest2) 0
          else if lower p = 120 then parseLoop 16 (q :: rest2) 0
          else parseLoop 8 rest 0
        | _ => parseLoop 8 rest 0
      else parseLoop 10 tok 0
    match r with
    | none => none
    | some n => if tok.contains '_' && !underscoreOK tok then none else some n

/-- The number `fmt.Sscan(s, &x)` stores in a `uint64` variable, or `none` when the scan
reports an error and stores nothing. -/
def scanUint (s : List Char) : Option Nat :=
  match scanToken (s.dropWhile isSpace) with
  | none => none
  | some tok => ParseUint tok

/-- The effect of `fmt.Sscan(s, &x)` on the `uint64` variable `x`, whose value before the
call is `old`: the source ignores the error, so a failed scan leaves `old`. -/
def Sscan (s : String) (old : Nat) : Nat := (scanUint s.data).getD old

/-- The loop of `strings.Fields`: `cur` is the field being collected, reversed. -/
def fieldsGo : List Char → List Char → List String
  | [], cur => if cur = [] then [] else [String.mk cur.reverse]
  | c :: cs, cur =>
    if isSpace c then
      if cur = [] then fieldsGo cs [] else String.mk cur.reverse :: fieldsGo cs []
    else fieldsGo cs (c :: cur)

/-- The call `strings.Fields`: the maximal runs of characters that are not white space. -/
def Fields (text : List Char) : List String := fieldsGo text []

/-! ## Battery sampler -/

/-- The variables the battery sampler keeps across ticks (`csm.go`, lines 78-81). -/
structure BatteryVars where
  power_supply_charge_now : Nat
  power_supply_current_now : Nat
  power_supply_charge_full : Nat
  power_supply_status : String
deriving DecidableEq, Repr

/-- The switch on the key (`csm.go`, lines 100-109) for one `KEY=VALUE` pair. -/
def batteryItem.assign (key value : String) (v : BatteryVars) : BatteryVars :=
  if key = "POWER_SUPPLY_CHARGE_NOW" then
    { v with power_supply_charge_now := Sscan value v.power_supply_charge_now }
  else if key = "POWER_SUPPLY_CURRENT_NOW" then
    { v with power_supply_current_now := Sscan value v.power_supply_current_now }
  else if key = "POWER_SUPPLY_CHARGE_FULL" then
    { v with power_supply_charge_full := Sscan value v.power_supply_charge_full }
  else if key = "POWER_SUPPLY_STATUS" then
    { v with power_supply_status := value }
  else v

/-- The slice `text[b:e]` as a string. -/
def slice (text : List Char) (b e : Nat) : String := String.mk ((text.drop b).take (e - b))

/-- The scanning loop `for end, c := range text` (`csm.go`, lines 94-113). The second
argument is what is left of `text` from index `end_` on; `begin`, `state` and `key` are
the loop variables of the source. -/
def batteryItem.scanLoop (text : List Char) :
    List Char → Nat → Nat → Nat → String → BatteryVars → BatteryVars
  | [], _, _, _, _, v => v
  | c :: cs, end_, begin, state, key, v =>
    if state = 0 ∧ c = '=' then
      batteryItem.scanLoop text cs (end_ + 1) (end_ + 1) 1 (slice text begin end_) v
    else if state = 1 ∧ c = '\n' then
      batteryItem.scanLoop text cs (end_ + 1) (end_ + 1) 0 key
        (batteryItem.assign key (slice text begin end_) v)
    else batteryItem.scanLoop text cs (end_ + 1) begin state key v

/-- One pass of the scanner over the text read from the file. -/
def batteryItem.scan (text : List Char) (v : BatteryVars) : BatteryVars :=
  batteryItem.scanLoop text text 0 0 0 "" v

/-- The emission step of the battery sampler (`csm.go`, lines 115-133): the string
sent on the channel and the variables afterwards, or `none` when the division by
`power_supply_charge_full` faults. -/
def batteryItem.emit (v : BatteryVars) : Option (String × BatteryVars) :=
  if v.power_supply_current_now = 0 then
    match div64 (mul64 100 v.power_supply_charge_now) v.power_supply_charge_full with
    | none => none
    | some charge =>
      some ("Battery: " ++ fmtV charge ++ "% ??:??:?? " ++ v.power_supply_status, v)
  else
    match div64 (mul64 100 v.power_supply_charge_now) v.power_supply_charge_full with
    | none => none
    | some charge =>
      let now :=
        if v.power_supply_status = "Charging" then
          sub64 v.power_supply_charge_full v.power_supply_charge_now
        else v.power_supply_charge_now
      match div64 (mul64 3600 now) v.power_supply_current_now with
      | none => none
      | some seconds =>
        some ("Battery: " ++ fmtV charge ++ "% " ++ fmtV (seconds / 3600) ++ ":" ++
            fmtZero 2 ((seconds % 3600) / 60) ++ ":" ++ fmtZero 2 ((seconds % 3600) % 60) ++
            " " ++ v.power_supply_status,
          { v with power_supply_charge_now := now })

/-- One tick of the battery sampler after the read: scan, then emit. -/
def batteryItem.tick (text : List Char) (v : BatteryVars) : Option (String × BatteryVars) :=
  batteryItem.emit (batteryItem.scan text v)

/-! ## CPU sampler -/

/-- The variables of the CPU sampler (`csm.go`, line 147): each `[2]uint64` is a pair,
first the entry at index 0 (this tick), then the entry at index 1 (previous tick). -/
structure CpuVars where
  user_mode : Nat × Nat
  user_mode_nice : Nat × Nat
  system_mode : Nat × Nat
  idel : Nat × Nat
deriving DecidableEq, Repr

/-- One tick of the CPU sampler after the read (`csm.go`, lines 160-172): `none` when
the text has fewer than five fields (index out of range). -/
def cpuItem.tick (text : List Char) (v : CpuVars) : Option (String × CpuVars) :=
  let fields := Fields text
  match fields[1]?, fields[2]?, fields[3]?, fields[4]? with
  | some f1, some f2, some f3, some f4 =>
    let user0 := Sscan f1 v.user_mode.1
    let nice0 := Sscan f2 v.user_mode_nice.1
    let system0 := Sscan f3 v.system_mode.1
    let idel0 := Sscan f4 v.idel.1
    some ("CPU: " ++
        fmtWidth 3 (sub64 (add64 (sub64 user0 v.user_mode.2) nice0) v.user_mode_nice.2) ++
        "% user " ++ fmtWidth 3 (sub64 system0 v.system_mode.2) ++
        "% system " ++ fmtWidth 3 (sub64 idel0 v.idel.2) ++ "% idel",
      { user_mode := (user0, user0), user_mode_nice := (nice0, nice0),
        system_mode := (system0, system0), idel := (idel0, idel0) })
  | _, _, _, _ => none

/-! ## Memory sampler -/

/-- One tick of the memory sampler after the read (`csm.go`, lines 198-203): `mem_total`
and `mem_free` are fresh (zero) at every tick; `none` when the text has fewer than five
fields or when the division by `mem_total` faults. -/
def memoryItem.tick (text : List Char) : Option String :=
  let fields := Fields text
  match fields[1]?, fields[4]? with
  | some f1, some f4 =>
    let mem_total := Sscan f1 0
    let mem_free := Sscan f4 0
    match div64 (mul64 100 (sub64 mem_total mem_free)) mem_total with
    | none => none
    | some percent => some ("Memory: " ++ fmtWidth 3 percent ++ "%")
  | _, _ => none

/-! ## Items and the partial redraw

The drawing library (`xgraphics`, `image`) is outside the repository. A call into it
is recorded as a `DrawOp`; the shared image is the list of the calls made on it. -/

/-- The colour type `xgraphics.BGRA`. -/
structure BGRA where
  B : Nat
  G : Nat
  R : Nat
  A : Nat
deriving DecidableEq, Repr

/-- A typeface (`*truetype.Font`), known by its measuring function: `measure size text`
is the pair (width, height) that `xgraphics.Extents` returns. -/
structure TrueTypeFont where
  measure : Nat → String → Int × Int

/-- The type `Font` (`csm.go`, lines 24-28). `Size` is the point size, 12.0 in the
source; it is only handed on to the library. -/
structure Font where
  Color : BGRA
  Size : Nat
  TrueType : TrueTypeFont

/-- The call `xgraphics.Extents(font, size, text)`. -/
def Extents (font : TrueTypeFont) (size : Nat) (text : String) : Int × Int :=
  font.measure size text

/-- The type `image.Rectangle`: the corners `Min` and `Max`. -/
structure Rectangle where
  minX : Int
  minY : Int
  maxX : Int
  maxY : Int
deriving DecidableEq, Repr

/-- The call `image.Rect(x0, y0, x1, y1)`: the corners are put in order. -/
def Rect (x0 y0 x1 y1 : Int) : Rectangle :=
  { minX := if x0 > x1 then x1 else x0, minY := if y0 > y1 then y1 else y0,
    maxX := if x0 > x1 then x0 else x1, maxY := if y0 > y1 then y0 else y1 }

/-- The width of a rectangle. -/
def Rectangle.Dx (r : Rectangle) : Int := r.maxX - r.minX

/-- The height of a rectangle. -/
def Rectangle.Dy (r : Rectangle) : Int := r.maxY - r.minY

/-- One call into the drawing library, on the sub-image of the shared image that the
rectangle `r` selects. -/
inductive DrawOp where
  /-- The call `sub.ForExp` with the constant transparent pixel: the erase. -/
  | clear (r : Rectangle)
  /-- The call `sub.Text(x, y, color, size, font, text)`. -/
  | text (r : Rectangle) (x y : Int) (color : BGRA) (size : Nat) (s : String)
  /-- The call `sub.XDraw()`. -/
  | xdraw (r : Rectangle)
  /-- The call `sub.XExpPaint(window, x, y)`: the blit to the window. -/
  | xpaint (r : Rectangle) (window : Nat) (x y : Int)
deriving DecidableEq, Repr

/-- The type `Item` (`csm.go`, lines 43-50). `Text` holds the strings waiting in the
channel, oldest first; the shared image is kept by the loop. -/
structure Item where
  Text : List String
  displayed : String
  offset : Int
  font : Font
  window : Nat

/-- The item the constructors `batteryItem`, `cpuItem` and `memoryItem` return
(`csm.go`, lines 136, 175, 206): an empty channel, nothing displayed. -/
def newItem (font : Font) (offset : Int) (window : Nat) : Item :=
  { Text := [], displayed := "", offset := offset, font := font, window := window }

/-- The method `Item.update` (`csm.go`, lines 52-68): the item afterwards and the calls
made on the shared image. -/
def Item.update (i : Item) (text : String) : Item × List DrawOp :=
  if text = i.displayed then (i, [])
  else
    let i1 : Item := if i.displayed = "" then { i with displayed := text } else i
    let wh := Extents i1.font.TrueType i1.font.Size i1.displayed
    let sub := Rect 10 i1.offset (10 + wh.1) (wh.2 + i1.offset)
    ({ i1 with displayed := text },
      [DrawOp.clear sub,
       DrawOp.text sub 10 i1.offset i1.font.Color i1.font.Size text,
       DrawOp.xdraw sub,
       DrawOp.xpaint sub i1.window 10 i1.offset])

/-- The number of blits among the calls. -/
def blits (ops : List DrawOp) : Nat :=
  (ops.filter fun op => match op with
    | DrawOp.xpaint _ _ _ _ => true
    | _ => false).length

/-- The number of text drawings among the calls. -/
def draws (ops : List DrawOp) : Nat :=
  (ops.filter fun op => match op with
    | DrawOp.text _ _ _ _ _ _ => true
    | _ => false).length

/-- The rectangles erased by the calls, in order. -/
def erased : List DrawOp → List Rectangle
  | [] => []
  | DrawOp.clear r :: ops => r :: erased ops
  | _ :: ops => erased ops

/-! ## The event loop of `main` -/

/-- The three items of `main`. -/
inductive Sel where
  | battery
  | cpu
  | memory
deriving DecidableEq, Repr

/-- The state of the loop (`csm.go`, lines 227-253): the three items, the flag
`*obscured`, the calls made so far on the shared image, whether the loop still runs,
and (as a record for the theorems) the calls of `update` made so far. -/
structure Loop where
  battery : Item
  cpu : Item
  memory : Item
  obscured : Bool
  surface : List DrawOp
  updates : List (Sel × String)
  running : Bool

/-- The state `main` enters the loop with (`csm.go`, lines 225-230): the items at the
offsets 10, 30 and 50, the flag unset (`makeWindow`, line 308). -/
def Loop.start (font : Font) (window : Nat) : Loop :=
  { battery := newItem font 10 window, cpu := newItem font 30 window,
    memory := newItem font 50 window, obscured := false, surface := [], updates := [],
    running := true }

/-- The item a case of the `select` reads from. -/
def Loop.item (s : Loop) : Sel → Item
  | Sel.battery => s.battery
  | Sel.cpu => s.cpu
  | Sel.memory => s.memory

/-- Replacement of one item. -/
def Loop.setItem (s : Loop) (w : Sel) (i : Item) : Loop :=
  match w with
  | Sel.battery => { s with battery := i }
  | Sel.cpu => { s with cpu := i }
  | Sel.memory => { s with memory := i }

/-- The case of the `select` that fires. During `before` the window system dispatches
its events; `visibility` is the state of a `VisibilityNotify` event among them, if any. -/
inductive Ready where
  | before (visibility : Option Nat)
  | quit
  | text (w : Sel)

/-- The constant `xproto.VisibilityFullyObscured`. -/
def VisibilityFullyObscured : Nat := 2

/-- One turn of the loop (`csm.go`, lines 232-252). `none`: the chosen case is not
ready, its channel being empty. -/
def Loop.step (s : Loop) : Ready → Option Loop
  | Ready.before none => some s
  | Ready.before (some state) => some { s with obscured := state == VisibilityFullyObscured }
  | Ready.quit => some { s with running := false }
  | Ready.text w =>
    match (s.item w).Text with
    | [] => none
    | text :: rest =>
      let i : Item := { s.item w with Text := rest }
      if s.obscured then some (s.setItem w i)
      else
        let r := i.update text
        some { s.setItem w r.1 with
          surface := s.surface ++ r.2, updates := s.updates ++ [(w, text)] }

/-- The loop over a schedule of ready cases; it ends with `quit`. -/
def Loop.run : List Ready → Loop → Option Loop
  | [], s => some s
  | r :: rs, s =>
    if s.running then
      match s.step r with
      | none => none
      | some s1 => Loop.run rs s1
    else some s

/-! ## Statement vocabulary -/

/-- A number below one hundred written with exactly two decimal digits. -/
def twoDigits (d : Nat) : String := String.mk [Nat.digitChar (d / 10), Nat.digitChar (d % 10)]

/-- The charge the remaining time is computed from, in the words of the specification:
what is missing to the full charge while charging, the present charge otherwise. -/
def specRemaining (status : String) (charge_now charge_full : Nat) : Nat :=
  if status = "Charging" then charge_full - charge_now else charge_now

/-- The string whose extent `Item.update` erases, for an incoming text that differs from
the displayed one: the displayed text, or the incoming text when nothing is displayed
yet. -/
def erasedText (i : Item) (text : String) : String :=
  if i.displayed = "" then text else i.displayed

/-- A fixed-pitch typeface for the examples: half the point size per character wide,
the point size high. -/
def sampleFace : TrueTypeFont :=
  { measure := fun size text => (Int.ofNat (size / 2 * text.length), Int.ofNat size) }

/-- The font of `main`: green, 12 points. -/
def sampleFont : Font :=
  { Color := { B := 0x00, G := 0xff, R := 0x00, A := 0xff }, Size := 12, TrueType := sampleFace }

/-- An item as `main` builds them, with a given channel content, displayed text and
offset. -/
def sampleItem (waiting : List String) (displayed : String) (offset : Int) : Item :=
  { Text := waiting, displayed := displayed, offset := offset, font := sampleFont, window := 1 }

/-- A loop state as in `main` (offsets 10, 30, 50) with two texts waiting on the CPU
channel. -/
def sampleLoop (obscured : Bool) : Loop :=
  { battery := sampleItem [] "Battery: 50% ??:??:?? Discharging" 10,
    cpu := sampleItem ["CPU:   1% user   0% system  99% idel",
      "CPU:   2% user   1% system  97% idel"] "CPU:   0% user   0% system 100% idel" 30,
    memory := sampleItem [] "Memory:  75%" 50,
    obscured := obscured, surface := [], updates := [], running := true }

/-- The text of a sequence of lines `KEY=VALUE`, each ended by a newline. -/
def renderLines : List (String × String) → List Char
  | [] => []
  | kv :: rest => kv.1.data ++ '=' :: kv.2.data ++ '\n' :: renderLines rest

/-- The shape of the lines: no `=` and no newline in a key, no newline in a value. -/
def WellFormed (lines : List (String × String)) : Prop :=
  ∀ kv ∈ lines, '=' ∉ kv.1.data ∧ '\n' ∉ kv.1.data ∧ '\n' ∉ kv.2.data

instance (lines : List (String × String)) : Decidable (WellFormed lines) := by
  unfold WellFormed
  infer_instance

/-- The value of the last line with the given key, if there is such a line. -/
def lastValue (key : String) (lines : List (String × String)) : Option String :=
  ((lines.filter fun kv => kv.1 = key).getLast?).map Prod.snd

/-- The pairs handled one after the other by the switch of the scanner. -/
def assignAll (lines : List (String × String)) (v : BatteryVars) : BatteryVars :=
  lines.foldl (fun acc kv => batteryItem.assign kv.1 kv.2 acc) v

/-- A decimal digit character. -/
def IsDec (c : Char) : Prop := ∃ d, d < 10 ∧ c = Nat.digitChar d

/-! ## Arithmetic lemmas -/

theorem wrap_eq : wrap = 18446744073709551616 := by decide

theorem mul64_of_lt {a b : Nat} (h : a * b < 2 ^ 64) : mul64 a b = a * b := by
  unfold mul64 wrap
  exact Nat.mod_eq_of_lt h

theorem sub64_of_le {a b : Nat} (hb : b ≤ a) (ha : a < 2 ^ 64) : sub64 a b = a - b := by
  unfold sub64 wrap
  have hb2 : b < 2 ^ 64 := lt_of_le_of_lt hb ha
  rw [Nat.mod_eq_of_lt hb2]
  have h1 : a + (2 ^ 64 - b) = (a - b) + 2 ^ 64 := by omega
  rw [h1, Nat.add_mod_right]
  exact Nat.mod_eq_of_lt (by omega)

theorem div64_pos {a b : Nat} (hb : 0 < b) : div64 a b = some (a / b) := by
  unfold div64
  rw [if_neg (by omega)]

theorem fmtZero_two (d : Nat) (h : d < 100) : fmtZero 2 d = twoDigits d := by
  interval_cases d <;> rfl

/-! ## Decimal numerals are scanned back -/

theorem maxUint64_eq : maxUint64 = 18446744073709551615 := by decide

theorem toDigitsCore_append (fuel1 : Nat) : ∀ (fuel2 n : Nat) (ds1 ds2 : List Char),
    n < fuel1 → n < fuel2 →
    Nat.toDigitsCore 10 fuel1 n (ds1 ++ ds2) = Nat.toDigitsCore 10 fuel2 n ds1 ++ ds2 := by
  induction fuel1 with
  | zero => intro fuel2 n ds1 ds2 h1; omega
  | succ f1 ih =>
    intro fuel2 n ds1 ds2 h1 h2
    cases fuel2 with
    | zero => omega
    | succ f2 =>
      simp only [Nat.toDigitsCore]
      by_cases h0 : n / 10 = 0
      · simp [h0]
      · rw [if_neg h0, if_neg h0]
        have hlt : n / 10 < n := Nat.div_lt_self (by omega) (by decide)
        have := ih f2 (n / 10) (Nat.digitChar (n % 10) :: ds1) ds2 (by omega) (by omega)
        simpa using this

theorem toDigits_small (n : Nat) (h : n < 10) : Nat.toDigits 10 n = [Nat.digitChar n] := by
  interval_cases n <;> rfl

theorem toDigits_step (n : Nat) (h : 10 ≤ n) :
    Nat.toDigits 10 n = Nat.toDigits 10 (n / 10) ++ [Nat.digitChar (n % 10)] := by
  have h0 : n / 10 ≠ 0 := by omega
  have hlt : n / 10 < n := Nat.div_lt_self (by omega) (by decide)
  unfold Nat.toDigits
  rw [Nat.toDigitsCore, if_neg h0]
  have := toDigitsCore_append n (n / 10 + 1) (n / 10) [] [Nat.digitChar (n % 10)] hlt (by omega)
  simpa using this

theorem digitChar_facts (d : Nat) (h : d < 10) :
    digitVal (Nat.digitChar d) = some d ∧ Nat.digitChar d ≠ '_' ∧
      accepts "0123456789_" (Nat.digitChar d) = true ∧ isSpace (Nat.digitChar d) = false ∧
      (Nat.digitChar d = '0' → d = 0) := by
  interval_cases d <;> decide

theorem toDigits_all_dec (n : Nat) : ∀ c ∈ Nat.toDigits 10 n, IsDec c := by
  induction n using Nat.strong_induction_on with
  | _ n ih =>
    by_cases h : n < 10
    · rw [toDigits_small n h]
      intro c hc
      simp only [List.mem_singleton] at hc
      exact ⟨n, h, hc⟩
    · rw [toDigits_step n (by omega)]
      intro c hc
      rcases List.mem_append.mp hc with hc | hc
      · exact ih (n / 10) (Nat.div_lt_self (by omega) (by decide)) c hc
      · simp only [List.mem_singleton] at hc
        exact ⟨n % 10, Nat.mod_lt _ (by decide), hc⟩

theorem toDigits_head (n : Nat) (hn : 0 < n) :
    ∃ d rest, 0 < d ∧ d < 10 ∧ Nat.toDigits 10 n = Nat.digitChar d :: rest := by
  induction n using Nat.strong_induction_on with
  | _ n ih =>
    by_cases h : n < 10
    · exact ⟨n, [], hn, h, toDigits_small n h⟩
    · obtain ⟨d, rest, hd0, hd, he⟩ := ih (n / 10) (Nat.div_lt_self hn (by decide))
        (Nat.div_pos (by omega) (by decide))
      refine ⟨d, rest ++ [Nat.digitChar (n % 10)], hd0, hd, ?_⟩
      rw [toDigits_step n (by omega), he]
      rfl

theorem parseLoop_append (base : Nat) (xs ys : List Char) : ∀ n,
    parseLoop base (xs ++ ys) n = (parseLoop base xs n).bind (parseLoop base ys) := by
  induction xs with
  | nil => intro n; rfl
  | cons c cs ih =>
    intro n
    simp only [List.cons_append, parseLoop]
    split
    · exact ih n
    · split
      · rfl
      · split
        · rfl
        · split
          · rfl
          · split
            · rfl
            · exact ih _

theorem parseLoop_digit (d m : Nat) (hd : d < 10) (hm : m * 10 + d ≤ maxUint64) :
    parseLoop 10 [Nat.digitChar d] m = some (m * 10 + d) := by
  obtain ⟨h1, h2, -, -, -⟩ := digitChar_facts d hd
  rw [maxUint64_eq] at hm
  simp only [parseLoop, if_neg h2, h1, maxUint64_eq]
  rw [if_neg (by omega), if_neg (by omega), if_neg (by omega)]

theorem parseLoop_toDigits (n : Nat) (hn : n ≤ maxUint64) :
    parseLoop 10 (Nat.toDigits 10 n) 0 = some n := by
  induction n using Nat.strong_induction_on with
  | _ n ih =>
    by_cases h : n < 10
    · rw [toDigits_small n h]
      have := parseLoop_digit n 0 h (by omega)
      simpa using this
    · rw [toDigits_step n (by omega), parseLoop_append,
        ih (n / 10) (Nat.div_lt_self (by omega) (by decide)) (by omega)]
      have := parseLoop_digit (n % 10) (n / 10) (Nat.mod_lt _ (by decide)) (by omega)
      rw [Option.some_bind, this]
      congr 1
      omega

/-- The scanner reads the decimal numeral of a `uint64` back as that number. -/
theorem scanUint_repr (n : Nat) (hn : n < 2 ^ 64) : scanUint (Nat.repr n).data = some n := by
  rcases Nat.eq_zero_or_pos n with h0 | hpos
  · subst h0; decide
  · obtain ⟨d, rest, hd0, hd, he⟩ := toDigits_head n hpos
    have hall := toDigits_all_dec n
    have hparse := parseLoop_toDigits n (by rw [maxUint64_eq]; omega)
    obtain ⟨-, -, hacc, hsp, hz⟩ := digitChar_facts d hd
    have hne : Nat.digitChar d ≠ '0' := fun hc => by have := hz hc; omega
    have hdata : (Nat.repr n).data = Nat.toDigits 10 n := rfl
    rw [hdata]
    rw [he] at hall hparse
    have hrest : rest.takeWhile (accepts "0123456789_") = rest := by
      rw [List.takeWhile_eq_self_iff]
      intro c hc
      obtain ⟨e, he1, he2⟩ := hall c (List.mem_cons_of_mem _ hc)
      rw [he2]
      exact (digitChar_facts e he1).2.2.1
    have hno : (Nat.digitChar d :: rest).contains '_' = false := by
      rw [Bool.eq_false_iff]
      intro hc
      rw [List.contains_iff_exists_mem_beq] at hc
      obtain ⟨c, hc1, hc2⟩ := hc
      obtain ⟨e, he1, he2⟩ := hall c hc1
      have := (digitChar_facts e he1).2.1
      rw [beq_iff_eq] at hc2
      exact this (he2 ▸ hc2.symm)
    rw [he]
    unfold scanUint
    rw [List.dropWhile_cons_of_neg (by simp [hsp])]
    simp only [scanToken, if_neg hne, hacc, if_true, hrest, ParseUint, hparse, hno]
    rfl

theorem Sscan_repr (n old : Nat) (hn : n < 2 ^ 64) : Sscan (Nat.repr n) old = n := by
  unfold Sscan
  rw [scanUint_repr n hn]
  rfl

/-! ## Battery sampler: the emission step -/

/-- C1. With `charge_full > 0`, `charge_now ≤ charge_full`, `current_now > 0` and
`charge_now*100`, `charge_full*3600` below `2^64`, the emission step of the battery
sampler sends `Battery: p% h:mm:ss status` where `p = charge_now*100/charge_full`, the
seconds are `remaining*3600/current_now` for the remaining charge of the specification,
`h` is written in plain decimal and `mm`, `ss` with two digits. -/
theorem battery_emit_time (charge_now charge_full current_now : Nat) (status : String)
    (hfull : 0 < charge_full) (hle : charge_now ≤ charge_full) (hcur : 0 < current_now)
    (h100 : charge_now * 100 < 2 ^ 64) (h3600 : charge_full * 3600 < 2 ^ 64) :
    (batteryItem.emit ⟨charge_now, current_now, charge_full, status⟩).map Prod.fst =
      some ("Battery: " ++ Nat.repr (charge_now * 100 / charge_full) ++ "% " ++
        Nat.repr (specRemaining status charge_now charge_full * 3600 / current_now / 3600) ++
        ":" ++
        twoDigits (specRemaining status charge_now charge_full * 3600 / current_now
          % 3600 / 60) ++ ":" ++
        twoDigits (specRemaining status charge_now charge_full * 3600 / current_now
          % 3600 % 60) ++ " " ++ status) := by
  have hnow : (if status = "Charging" then sub64 charge_full charge_now else charge_now)
      = specRemaining status charge_now charge_full := by
    unfold specRemaining
    split
    · exact sub64_of_le hle (by omega)
    · rfl
  have hrem : specRemaining status charge_now charge_full ≤ charge_full := by
    unfold specRemaining
    split <;> omega
  have hm1 : mul64 100 charge_now = charge_now * 100 := by
    rw [mul64_of_lt (by omega)]; ring
  have hm2 : mul64 3600 (specRemaining status charge_now charge_full)
      = specRemaining status charge_now charge_full * 3600 := by
    rw [mul64_of_lt (by omega)]; ring
  simp only [batteryItem.emit, if_neg (Nat.pos_iff_ne_zero.mp hcur), hm1, div64_pos hfull, hnow,
    hm2, div64_pos hcur, Option.map_some', fmtV]
  rw [fmtZero_two _ (by omega), fmtZero_two _ (by omega)]

/-- C1, at the two inputs of the specification. -/
theorem battery_emit_time_witness :
    (batteryItem.emit ⟨25, 10, 100, "Discharging"⟩).map Prod.fst
        = some "Battery: 25% 2:30:00 Discharging" ∧
      (batteryItem.emit ⟨80, 10, 100, "Charging"⟩).map Prod.fst
        = some "Battery: 80% 2:00:00 Charging" :=
  ⟨battery_emit_time 25 100 10 "Discharging" (by decide) (by decide) (by decide) (by decide)
      (by decide),
    battery_emit_time 80 100 10 "Charging" (by decide) (by decide) (by decide) (by decide)
      (by decide)⟩

/-- C2. With `charge_full > 0` and `charge_now*100` below `2^64`, when `current_now` is
zero the emission step sends `Battery: p% ??:??:?? status` with
`p = charge_now*100/charge_full`; the step completes (no division by `current_now`) and
leaves the variables as they were. -/
theorem battery_emit_unknown (charge_now charge_full : Nat) (status : String)
    (hfull : 0 < charge_full) (h100 : charge_now * 100 < 2 ^ 64) :
    batteryItem.emit ⟨charge_now, 0, charge_full, status⟩ =
      some ("Battery: " ++ Nat.repr (charge_now * 100 / charge_full) ++ "% ??:??:?? " ++ status,
        ⟨charge_now, 0, charge_full, status⟩) := by
  have hm1 : mul64 100 charge_now = charge_now * 100 := by
    rw [mul64_of_lt (by omega)]; ring
  simp only [batteryItem.emit, if_true, hm1, div64_pos hfull, fmtV]

/-- C2, at the input of the specification. -/
theorem battery_emit_unknown_witness :
    batteryItem.emit ⟨50, 0, 100, "Discharging"⟩ =
      some ("Battery: 50% ??:??:?? Discharging", ⟨50, 0, 100, "Discharging"⟩) :=
  battery_emit_unknown 50 100 "Discharging" (by decide) (by decide)

/-- C10, at the input `charge_now = 4010000`, `charge_full = 4000000`,
`current_now = 1500000`, status `Charging`: the subtraction `charge_full - charge_now`
wraps around and the time sent is 3416063717:20:49, far above the
`4000000*3600/1500000 = 9600` seconds of a full charge. -/
theorem battery_emit_charging_above_full :
    batteryItem.emit ⟨4010000, 1500000, 4000000, "Charging"⟩ =
        some ("Battery: 100% 3416063717:20:49 Charging",
          ⟨18446744073709541616, 1500000, 4000000, "Charging"⟩) ∧
      4000000 * 3600 / 1500000 < 3416063717 * 3600 + 20 * 60 + 49 := by
  decide

/-! ## CPU sampler -/

theorem sub64_int (a b : Nat) : sub64 a b = Int.toNat (((a : Int) - b) % 2 ^ 64) := by
  unfold sub64
  rw [wrap_eq]
  omega

theorem cpu_sum_int (a b c d : Nat) :
    sub64 (add64 (sub64 a b) c) d = Int.toNat (((a : Int) - b + c - d) % 2 ^ 64) := by
  unfold sub64 add64
  rw [wrap_eq]
  omega

/-- C3, as the code has it. When the fields at index 1 to 4 of the text are the decimal
numerals of the counters `user`, `nice`, `system`, `idle` (each below `2^64`), the CPU
sampler sends `CPU: a% user b% system c% idel` where `a`, `b`, `c` are the differences
`(user - user') + (nice - nice')`, `system - system'`, `idle - idle'` to the counters
of the previous tick reduced modulo `2^64`, each written in decimal and right-aligned
in a field of three characters; the counters read become the previous ones. -/
theorem cpu_tick_line (text : List Char) (v : CpuVars) (user nice system idle : Nat)
    (h1 : (Fields text)[1]? = some (Nat.repr user))
    (h2 : (Fields text)[2]? = some (Nat.repr nice))
    (h3 : (Fields text)[3]? = some (Nat.repr system))
    (h4 : (Fields text)[4]? = some (Nat.repr idle))
    (hu : user < 2 ^ 64) (hn : nice < 2 ^ 64) (hs : system < 2 ^ 64) (hi : idle < 2 ^ 64) :
    cpuItem.tick text v =
      some ("CPU: " ++
          fmtWidth 3 (Int.toNat (((user : Int) - v.user_mode.2 + nice - v.user_mode_nice.2)
            % 2 ^ 64)) ++
          "% user " ++ fmtWidth 3 (Int.toNat (((system : Int) - v.system_mode.2) % 2 ^ 64)) ++
          "% system " ++ fmtWidth 3 (Int.toNat (((idle : Int) - v.idel.2) % 2 ^ 64)) ++
          "% idel",
        { user_mode := (user, user), user_mode_nice := (nice, nice),
          system_mode := (system, system), idel := (idle, idle) }) := by
  simp only [cpuItem.tick, h1, h2, h3, h4, Sscan_repr _ _ hu, Sscan_repr _ _ hn, Sscan_repr _ _ hs,
    Sscan_repr _ _ hi]
  rw [cpu_sum_int, sub64_int, sub64_int]

/-- C3, as the code has it, at the counters of the specification. -/
theorem cpu_tick_line_witness :
    cpuItem.tick "cpu  110 0 55 855 0 0 0 0 0 0\ncpu0 110 0 55 855 0 0 0 0 0 0\n".data
        ⟨(100, 100), (0, 0), (50, 50), (850, 850)⟩ =
      some ("CPU:  10% user   5% system   5% idel",
        ⟨(110, 110), (0, 0), (55, 55), (855, 855)⟩) :=
  cpu_tick_line _ ⟨(100, 100), (0, 0), (50, 50), (850, 850)⟩ 110 0 55 855
    (by decide) (by decide) (by decide) (by decide)
    (by decide) (by decide) (by decide) (by decide)

/-- C3 as stated fails: at the counters of the specification the string sent is not
`CPU: 10% user 5% system 5% idel`, the numbers being padded to three characters. -/
theorem cpu_tick_not_single_spaced :
    (cpuItem.tick "cpu  110 0 55 855 0 0 0 0 0 0\ncpu0 110 0 55 855 0 0 0 0 0 0\n".data
        ⟨(100, 100), (0, 0), (50, 50), (850, 850)⟩).map Prod.fst
      ≠ some "CPU: 10% user 5% system 5% idel" := by
  decide

/-! ## Memory sampler -/

/-- C4, as the code has it. When the field at index 1 is the decimal numeral of
`total`, `0 < total < 2^64`, the field at index 4 the decimal numeral of `free ≤ total`
and `(total - free)*100` is below `2^64`, the memory sampler sends `Memory: p%` with
`p = (total - free)*100/total` written in decimal and right-aligned in a field of three
characters. -/
theorem memory_tick_line (text : List Char) (total free : Nat)
    (h1 : (Fields text)[1]? = some (Nat.repr total))
    (h4 : (Fields text)[4]? = some (Nat.repr free))
    (hpos : 0 < total) (hle : free ≤ total) (ht : total < 2 ^ 64)
    (h100 : (total - free) * 100 < 2 ^ 64) :
    memoryItem.tick text =
      some ("Memory: " ++ fmtWidth 3 ((total - free) * 100 / total) ++ "%") := by
  have hm : mul64 100 (total - free) = (total - free) * 100 := by
    rw [mul64_of_lt (by omega)]; ring
  simp only [memoryItem.tick, h1, h4, Sscan_repr _ _ ht, Sscan_repr free 0 (by omega),
    sub64_of_le hle ht, hm, div64_pos hpos]

/-- C4, as the code has it, at the input of the specification. -/
theorem memory_tick_line_witness :
    memoryItem.tick "MemTotal:        8000000 kB\nMemFree:         2000000 kB\n".data =
      some "Memory:  75%" :=
  memory_tick_line _ 8000000 2000000 (by decide) (by decide) (by decide) (by decide)
    (by decide) (by decide)

/-- C4 as stated fails: for `total = 8000000` and `free = 2000000` the string sent is
not `Memory: 75%`. -/
theorem memory_tick_not_unpadded :
    memoryItem.tick "MemTotal:        8000000 kB\nMemFree:         2000000 kB\n".data
      ≠ some "Memory: 75%" := by
  decide

/-- C8, as the code has it. When the field at index 1 scans as a number `total > 0` and
the field at index 4 is not a number, the free memory is taken as zero and the step
completes, sending `Memory: p%` with `p = (100*total mod 2^64)/total` right-aligned in a
field of three characters. -/
theorem memory_tick_free_anomaly (text : List Char) (f1 f4 : String) (total : Nat)
    (h1 : (Fields text)[1]? = some f1) (h4 : (Fields text)[4]? = some f4)
    (htotal : scanUint f1.data = some total) (hfree : scanUint f4.data = none)
    (hpos : 0 < total) :
    memoryItem.tick text =
      some ("Memory: " ++ fmtWidth 3 (100 * total % 2 ^ 64 / total) ++ "%") := by
  have hs : sub64 total 0 = total % 2 ^ 64 := by
    unfold sub64
    rw [wrap_eq]
    omega
  simp only [memoryItem.tick, h1, h4, Sscan, htotal, hfree, Option.getD_some, Option.getD_none, hs,
    mul64, wrap, Nat.mul_mod_mod, div64_pos hpos]

/-- C8, as the code has it, at a text whose field at index 4 is `n/a`. -/
theorem memory_tick_free_anomaly_witness :
    memoryItem.tick "MemTotal: 8000000 kB\nMemFree: n/a kB\n".data = some "Memory: 100%" :=
  memory_tick_free_anomaly _ "8000000" "n/a" 8000000 (by decide) (by decide) (by decide)
    (by decide) (by decide)

/-- C8 as stated fails: when the field at index 1 is `n/a`, not a number, the total is
taken as zero and the division by it faults; no string is sent. -/
theorem memory_tick_total_anomaly :
    (Fields "MemTotal: n/a kB\nMemFree: 2000000 kB\n".data)[1]? = some "n/a" ∧
      scanUint "n/a".data = none ∧
      memoryItem.tick "MemTotal: n/a kB\nMemFree: 2000000 kB\n".data = none := by
  decide

/-! ## The partial redraw -/

/-- C5, as the code has it. Two calls of `update` with the same text in a row: the
second call makes no call on the image and leaves the item as the first call left it;
together they draw and blit once when the text differs from the text displayed before
the first call, and not at all when it equals it. -/
theorem update_twice (i : Item) (text : String) :
    (i.update text).1.update text = ((i.update text).1, []) ∧
      blits ((i.update text).2 ++ ((i.update text).1.update text).2) =
        (if text = i.displayed then 0 else 1) ∧
      draws ((i.update text).2 ++ ((i.update text).1.update text).2) =
        (if text = i.displayed then 0 else 1) := by
  by_cases h : text = i.displayed
  · have h1 : i.update text = (i, []) := by
      unfold Item.update
      rw [if_pos h]
    rw [h1]
    simp only [h1, if_pos h]
    exact ⟨trivial, rfl, rfl⟩
  · have h2 : ((i.update text).1).displayed = text := by
      unfold Item.update
      rw [if_neg h]
    have h3 : (i.update text).1.update text = ((i.update text).1, []) := by
      generalize (i.update text).1 = j at h2 ⊢
      unfold Item.update
      rw [if_pos h2.symm]
    refine ⟨h3, ?_⟩
    rw [h3, if_neg h]
    unfold Item.update
    rw [if_neg h]
    exact ⟨rfl, rfl⟩

/-- C5 as stated fails: when the text is the one already displayed, the two calls make
no call on the image at all: zero blits, not one. -/
theorem update_same_text_no_blit :
    ((sampleItem [] "Memory:  75%" 50).update "Memory:  75%").2 ++
      (((sampleItem [] "Memory:  75%" 50).update "Memory:  75%").1.update "Memory:  75%").2
      = [] ∧
    blits (((sampleItem [] "Memory:  75%" 50).update "Memory:  75%").2 ++
      (((sampleItem [] "Memory:  75%" 50).update "Memory:  75%").1.update "Memory:  75%").2)
      ≠ 1 := by
  decide

/-- C6, as the code has it. A call `update(text)` with a text that differs from the
displayed one erases exactly one rectangle; it is anchored at `x = 10`, `y = offset` and
has the width and height the font measures (assumed not negative) for the text
displayed before the call, or for the incoming text when nothing was displayed yet. -/
theorem update_erases_measured (i : Item) (text : String) (hne : text ≠ i.displayed)
    (hw : 0 ≤ (Extents i.font.TrueType i.font.Size (erasedText i text)).1)
    (hh : 0 ≤ (Extents i.font.TrueType i.font.Size (erasedText i text)).2) :
    ∃ r, erased (i.update text).2 = [r] ∧ r.minX = 10 ∧ r.minY = i.offset ∧
      r.Dx = (Extents i.font.TrueType i.font.Size (erasedText i text)).1 ∧
      r.Dy = (Extents i.font.TrueType i.font.Size (erasedText i text)).2 := by
  have hd : (if i.displayed = "" then { i with displayed := text } else i).displayed
      = erasedText i text := by
    unfold erasedText
    split <;> rfl
  have hf : (if i.displayed = "" then { i with displayed := text } else i).font = i.font := by
    split <;> rfl
  have ho : (if i.displayed = "" then { i with displayed := text } else i).offset
      = i.offset := by
    split <;> rfl
  unfold Item.update
  rw [if_neg hne]
  simp only [erased, hd, hf, ho]
  refine ⟨_, rfl, ?_, ?_, ?_, ?_⟩
  · simp only [Rect]
    rw [if_neg (by omega)]
  · simp only [Rect]
    rw [if_neg (by omega)]
  · simp only [Rectangle.Dx, Rect]
    rw [if_neg (by omega), if_neg (by omega)]
    omega
  · simp only [Rectangle.Dy, Rect]
    rw [if_neg (by omega), if_neg (by omega)]
    omega

/-- C6, as the code has it, at an item that displays a text of 12 characters. -/
theorem update_erases_measured_witness :
    ∃ r, erased ((sampleItem [] "Memory:  75%" 50).update "Memory: 100%").2 = [r] ∧
      r.minX = 10 ∧ r.minY = 50 ∧ r.Dx = 72 ∧ r.Dy = 12 :=
  update_erases_measured (sampleItem [] "Memory:  75%" 50) "Memory: 100%" (by decide)
    (by decide) (by decide)

/-- C6 as stated fails: on the first text of an item, which displays the empty text, the
rectangle erased is 72 wide, the extent of the incoming text, while the text displayed
before the call measures 0. -/
theorem update_first_text_erases_incoming :
    erased ((sampleItem [] "" 50).update "Memory:  75%").2 = [⟨10, 50, 82, 62⟩] ∧
      (⟨10, 50, 82, 62⟩ : Rectangle).Dx = 72 ∧
      (Extents sampleFont.TrueType sampleFont.Size "").1 = 0 := by
  decide

/-! ## The event loop -/

theorem item_setItem (s : Loop) (w : Sel) (i : Item) : (s.setItem w i).item w = i := by
  cases w <;> rfl

theorem item_setItem_ne (s : Loop) (w k : Sel) (i : Item) (h : k ≠ w) :
    (s.setItem w i).item k = s.item k := by
  cases w <;> cases k <;> first | rfl | exact absurd rfl h

theorem setItem_setItem (s : Loop) (w : Sel) (i j : Item) :
    (s.setItem w i).setItem w j = s.setItem w j := by
  cases w <;> rfl

theorem setItem_fields (s : Loop) (w : Sel) (i : Item) :
    (s.setItem w i).obscured = s.obscured ∧ (s.setItem w i).running = s.running ∧
      (s.setItem w i).surface = s.surface ∧ (s.setItem w i).updates = s.updates := by
  cases w <;> exact ⟨rfl, rfl, rfl, rfl⟩

theorem step_obscured (s : Loop) (w : Sel) (t : String) (rest : List String)
    (hobs : s.obscured = true) (hchan : (s.item w).Text = t :: rest) :
    s.step (Ready.text w) = some (s.setItem w { s.item w with Text := rest }) := by
  simp only [Loop.step, hchan, hobs, if_true]

theorem run_obscured (w : Sel) (texts rest : List String) : ∀ s : Loop,
    s.running = true → s.obscured = true → (s.item w).Text = texts ++ rest →
    Loop.run (List.replicate texts.length (Ready.text w)) s
      = some (s.setItem w { s.item w with Text := rest }) := by
  induction texts with
  | nil =>
    intro s _ _ hchan
    have : ({ s.item w with Text := rest } : Item) = s.item w := by
      rw [← (show (s.item w).Text = rest from hchan)]
    rw [this]
    cases w <;> rfl
  | cons t ts ih =>
    intro s hrun hobs hchan
    obtain ⟨h1, h2, -, -⟩ := setItem_fields s w { s.item w with Text := ts ++ rest }
    simp only [List.length_cons, List.replicate_succ, Loop.run, hrun, if_true,
      step_obscured s w t (ts ++ rest) hobs hchan]
    rw [ih _ (h2.trans hrun) (h1.trans hobs) (by rw [item_setItem]), item_setItem,
      setItem_setItem]

/-- C7. While the flag is `fully obscured`, the loop takes every one of the `N` texts
waiting on an item's channel off the channel, calls `update` zero times, makes no call
on the image (so no blit), and leaves the displayed text of every item, the other items
and the flag as they were. When the flag is not obscured, the text taken off the channel
is handed to the `update` of that item, whose calls are made on the image. -/
theorem loop_text_arrivals (s : Loop) (w : Sel) :
    (∀ texts rest : List String, s.running = true → s.obscured = true →
      (s.item w).Text = texts ++ rest →
      ∃ s1, Loop.run (List.replicate texts.length (Ready.text w)) s = some s1 ∧
        (s1.item w).Text = rest ∧ s1.updates = s.updates ∧ s1.surface = s.surface ∧
        blits s1.surface = blits s.surface ∧
        (∀ k, (s1.item k).displayed = (s.item k).displayed) ∧
        (∀ k, k ≠ w → s1.item k = s.item k) ∧ s1.obscured = true ∧ s1.running = true) ∧
    (∀ (text : String) (rest : List String), s.obscured = false →
      (s.item w).Text = text :: rest →
      s.step (Ready.text w) =
        some { s.setItem w (({ s.item w with Text := rest } : Item).update text).1 with
          surface := s.surface ++ (({ s.item w with Text := rest } : Item).update text).2,
          updates := s.updates ++ [(w, text)] }) := by
  constructor
  · intro texts rest hrun hobs hchan
    obtain ⟨h1, h2, h3, h4⟩ := setItem_fields s w { s.item w with Text := rest }
    refine ⟨_, run_obscured w texts rest s hrun hobs hchan, ?_, h4, h3, by rw [h3], ?_, ?_,
      h1.trans hobs, h2.trans hrun⟩
    · rw [item_setItem]
    · intro k
      by_cases hk : k = w
      · subst hk
        rw [item_setItem]
      · rw [item_setItem_ne s w k _ hk]
    · intro k hk
      exact item_setItem_ne s w k _ hk
  · intro text rest hobs hchan
    simp only [Loop.step, hchan, hobs]
    rfl

/-- C7, at a loop with two texts waiting on the CPU channel: obscured, both are taken
off and nothing is drawn; not obscured, the first is drawn by `update`. -/
theorem loop_text_arrivals_witness :
    (∃ s1, Loop.run [Ready.text Sel.cpu, Ready.text Sel.cpu] (sampleLoop true) = some s1 ∧
      (s1.item Sel.cpu).Text = [] ∧ s1.updates = [] ∧ s1.surface = [] ∧
      (s1.item Sel.cpu).displayed = "CPU:   0% user   0% system 100% idel") ∧
    (∃ s2, (sampleLoop false).step (Ready.text Sel.cpu) = some s2 ∧
      s2.updates = [(Sel.cpu, "CPU:   1% user   0% system  99% idel")] ∧
      (s2.item Sel.cpu).displayed = "CPU:   1% user   0% system  99% idel" ∧
      blits s2.surface = 1) := by
  obtain ⟨s1, h1, h2, h3, h4, -, h6, -, -, -⟩ :=
    (loop_text_arrivals (sampleLoop true) Sel.cpu).1
      ["CPU:   1% user   0% system  99% idel", "CPU:   2% user   1% system  97% idel"] []
      rfl rfl rfl
  have h7 := (loop_text_arrivals (sampleLoop false) Sel.cpu).2
    "CPU:   1% user   0% system  99% idel" ["CPU:   2% user   1% system  97% idel"] rfl rfl
  exact ⟨⟨s1, h1, h2, h3, h4, h6 Sel.cpu⟩, ⟨_, h7, rfl, rfl, by decide⟩⟩

/-! ## Battery sampler: the scanner -/

theorem scanLoop_key (text : List Char) (ks : List Char) (hk : '=' ∉ ks) :
    ∀ (rest : List Char) (e b : Nat) (key : String) (v : BatteryVars),
    batteryItem.scanLoop text (ks ++ rest) e b 0 key v
      = batteryItem.scanLoop text rest (e + ks.length) b 0 key v := by
  induction ks with
  | nil => intro rest e b key v; rfl
  | cons c cs ih =>
    intro rest e b key v
    have hc : c ≠ '=' := fun h => hk (h ▸ List.mem_cons_self _ _)
    have hcs : '=' ∉ cs := fun h => hk (List.mem_cons_of_mem _ h)
    show batteryItem.scanLoop text (c :: (cs ++ rest)) e b 0 key v = _
    rw [batteryItem.scanLoop, if_neg (fun h => hc h.2), if_neg (fun h => Nat.zero_ne_one h.1),
      ih hcs, List.length_cons]
    congr 1
    omega

theorem scanLoop_value (text : List Char) (vs : List Char) (hv : '\n' ∉ vs) :
    ∀ (rest : List Char) (e b : Nat) (key : String) (v : BatteryVars),
    batteryItem.scanLoop text (vs ++ rest) e b 1 key v
      = batteryItem.scanLoop text rest (e + vs.length) b 1 key v := by
  induction vs with
  | nil => intro rest e b key v; rfl
  | cons c cs ih =>
    intro rest e b key v
    have hc : c ≠ '\n' := fun h => hv (h ▸ List.mem_cons_self _ _)
    have hcs : '\n' ∉ cs := fun h => hv (List.mem_cons_of_mem _ h)
    show batteryItem.scanLoop text (c :: (cs ++ rest)) e b 1 key v = _
    rw [batteryItem.scanLoop, if_neg (fun h => Nat.one_ne_zero h.1), if_neg (fun h => hc h.2),
      ih hcs, List.length_cons]
    congr 1
    omega

theorem slice_mid (pre mid post : List Char) :
    slice (pre ++ (mid ++ post)) pre.length (pre.length + mid.length) = String.mk mid := by
  unfold slice
  rw [List.drop_left, Nat.add_sub_cancel_left, List.take_left]

theorem scanLoop_line (pre ks vs rest : List Char) (hk : '=' ∉ ks) (hv : '\n' ∉ vs)
    (key : String) (v : BatteryVars) :
    batteryItem.scanLoop (pre ++ (ks ++ '=' :: vs ++ '\n' :: rest))
        (ks ++ '=' :: vs ++ '\n' :: rest) pre.length pre.length 0 key v =
      batteryItem.scanLoop (pre ++ (ks ++ '=' :: vs ++ '\n' :: rest)) rest
        (pre ++ (ks ++ '=' :: vs ++ ['\n'])).length (pre ++ (ks ++ '=' :: vs ++ ['\n'])).length 0
        (String.mk ks) (batteryItem.assign (String.mk ks) (String.mk vs) v) := by
  have e1 : ks ++ '=' :: vs ++ '\n' :: rest = ks ++ ('=' :: (vs ++ '\n' :: rest)) := by simp
  have hs1 : slice (pre ++ (ks ++ '=' :: vs ++ '\n' :: rest)) pre.length (pre.length + ks.length)
      = String.mk ks := by
    rw [e1]
    exact slice_mid pre ks _
  have hs2 : slice (pre ++ (ks ++ '=' :: vs ++ '\n' :: rest)) (pre.length + ks.length + 1)
      (pre.length + ks.length + 1 + vs.length) = String.mk vs := by
    have e2 : pre ++ (ks ++ '=' :: vs ++ '\n' :: rest)
        = (pre ++ ks ++ ['=']) ++ (vs ++ '\n' :: rest) := by simp
    have e3 : pre.length + ks.length + 1 = (pre ++ ks ++ ['=']).length := by
      rw [List.length_append, List.length_append]
      rfl
    rw [e2, e3]
    exact slice_mid _ vs _
  have hlen : (pre ++ (ks ++ '=' :: vs ++ ['\n'])).length
      = pre.length + ks.length + 1 + vs.length + 1 := by
    simp only [List.length_append, List.length_cons, List.length_nil]
    omega
  generalize htext : pre ++ (ks ++ '=' :: vs ++ '\n' :: rest) = text at hs1 hs2 ⊢
  rw [e1, scanLoop_key text ks hk]
  simp only [batteryItem.scanLoop, true_and, if_true]
  rw [scanLoop_value text vs hv]
  simp only [batteryItem.scanLoop, true_and, if_true, Nat.one_ne_zero, false_and, if_false]
  rw [hs1, hs2, hlen]

theorem scanLoop_lines (lines : List (String × String)) (hwf : WellFormed lines) :
    ∀ (pre : List Char) (key : String) (v : BatteryVars),
    batteryItem.scanLoop (pre ++ renderLines lines) (renderLines lines) pre.length pre.length
        0 key v = assignAll lines v := by
  induction lines with
  | nil => intro pre key v; rfl
  | cons kv rest ih =>
    intro pre key v
    obtain ⟨hk, -, hv⟩ := hwf kv (List.mem_cons_self _ _)
    have hrest : WellFormed rest := fun x hx => hwf x (List.mem_cons_of_mem _ hx)
    have e1 : renderLines (kv :: rest)
        = kv.1.data ++ '=' :: kv.2.data ++ '\n' :: renderLines rest := rfl
    rw [e1, scanLoop_line pre kv.1.data kv.2.data (renderLines rest) hk hv]
    have e2 : pre ++ (kv.1.data ++ '=' :: kv.2.data ++ '\n' :: renderLines rest)
        = (pre ++ (kv.1.data ++ '=' :: kv.2.data ++ ['\n'])) ++ renderLines rest := by simp
    rw [e2, ih hrest]
    rfl

theorem assignAll_snoc (lines : List (String × String)) (kv : String × String)
    (v : BatteryVars) :
    assignAll (lines ++ [kv]) v = batteryItem.assign kv.1 kv.2 (assignAll lines v) := by
  unfold assignAll
  rw [List.foldl_append]
  rfl

theorem lastValue_snoc (key : String) (lines : List (String × String))
    (kv : String × String) :
    lastValue key (lines ++ [kv]) = if kv.1 = key then some kv.2 else lastValue key lines := by
  unfold lastValue
  rw [List.filter_append]
  by_cases h : kv.1 = key
  · simp [List.filter_cons, h]
  · simp [List.filter_cons, h]

theorem batteryAssign_fields (k val : String) (v : BatteryVars) :
    (batteryItem.assign k val v).power_supply_status
        = (if k = "POWER_SUPPLY_STATUS" then val else v.power_supply_status) ∧
      (batteryItem.assign k val v).power_supply_charge_now
        = (if k = "POWER_SUPPLY_CHARGE_NOW" then Sscan val v.power_supply_charge_now
            else v.power_supply_charge_now) ∧
      (batteryItem.assign k val v).power_supply_current_now
        = (if k = "POWER_SUPPLY_CURRENT_NOW" then Sscan val v.power_supply_current_now
            else v.power_supply_current_now) ∧
      (batteryItem.assign k val v).power_supply_charge_full
        = (if k = "POWER_SUPPLY_CHARGE_FULL" then Sscan val v.power_supply_charge_full
            else v.power_supply_charge_full) := by
  by_cases h1 : k = "POWER_SUPPLY_CHARGE_NOW"
  · subst h1
    simp [batteryItem.assign]
  · by_cases h2 : k = "POWER_SUPPLY_CURRENT_NOW"
    · subst h2
      simp [batteryItem.assign]
    · by_cases h3 : k = "POWER_SUPPLY_CHARGE_FULL"
      · subst h3
        simp [batteryItem.assign]
      · by_cases h4 : k = "POWER_SUPPLY_STATUS"
        · subst h4
          simp [batteryItem.assign]
        · simp [batteryItem.assign, h1, h2, h3, h4]

theorem assignAll_status (v : BatteryVars) (lines : List (String × String)) :
    (assignAll lines v).power_supply_status
      = (lastValue "POWER_SUPPLY_STATUS" lines).getD v.power_supply_status := by
  induction lines using List.reverseRecOn with
  | nil => rfl
  | append_singleton ls kv ih =>
    rw [assignAll_snoc, lastValue_snoc, (batteryAssign_fields _ _ _).1]
    split
    · rfl
    · exact ih

theorem assignAll_charge_now (v : BatteryVars) (lines : List (String × String)) :
    (lastValue "POWER_SUPPLY_CHARGE_NOW" lines = none →
        (assignAll lines v).power_supply_charge_now = v.power_supply_charge_now) ∧
      ∀ n, n < 2 ^ 64 → lastValue "POWER_SUPPLY_CHARGE_NOW" lines = some (Nat.repr n) →
        (assignAll lines v).power_supply_charge_now = n := by
  induction lines using List.reverseRecOn with
  | nil => exact ⟨fun _ => rfl, fun n _ h => Option.noConfusion h⟩
  | append_singleton ls kv ih =>
    rw [assignAll_snoc, lastValue_snoc, (batteryAssign_fields _ _ _).2.1]
    split
    · refine ⟨fun h => Option.noConfusion h, fun n hn h => ?_⟩
      rw [Option.some.inj h]
      exact Sscan_repr n _ hn
    · exact ih

theorem assignAll_current_now (v : BatteryVars) (lines : List (String × String)) :
    (lastValue "POWER_SUPPLY_CURRENT_NOW" lines = none →
        (assignAll lines v).power_supply_current_now = v.power_supply_current_now) ∧
      ∀ n, n < 2 ^ 64 → lastValue "POWER_SUPPLY_CURRENT_NOW" lines = some (Nat.repr n) →
        (assignAll lines v).power_supply_current_now = n := by
  induction lines using List.reverseRecOn with
  | nil => exact ⟨fun _ => rfl, fun n _ h => Option.noConfusion h⟩
  | append_singleton ls kv ih =>
    rw [assignAll_snoc, lastValue_snoc, (batteryAssign_fields _ _ _).2.2.1]
    split
    · refine ⟨fun h => Option.noConfusion h, fun n hn h => ?_⟩
      rw [Option.some.inj h]
      exact Sscan_repr n _ hn
    · exact ih

theorem assignAll_charge_full (v : BatteryVars) (lines : List (String × String)) :
    (lastValue "POWER_SUPPLY_CHARGE_FULL" lines = none →
        (assignAll lines v).power_supply_charge_full = v.power_supply_charge_full) ∧
      ∀ n, n < 2 ^ 64 → lastValue "POWER_SUPPLY_CHARGE_FULL" lines = some (Nat.repr n) →
        (assignAll lines v).power_supply_charge_full = n := by
  induction lines using List.reverseRecOn with
  | nil => exact ⟨fun _ => rfl, fun n _ h => Option.noConfusion h⟩
  | append_singleton ls kv ih =>
    rw [assignAll_snoc, lastValue_snoc, (batteryAssign_fields _ _ _).2.2.2]
    split
    · refine ⟨fun h => Option.noConfusion h, fun n hn h => ?_⟩
      rw [Option.some.inj h]
      exact Sscan_repr n _ hn
    · exact ih

/-- C9, as the code has it. For a text made of newline-terminated lines `KEY=VALUE` (no
`=` and no newline in a key, no newline in a value), one pass of the scanner handles
exactly the pairs of the lines, in order. Afterwards the status is the value of the last
line with key `POWER_SUPPLY_STATUS`; charge-now, current-now and charge-full are the
numbers on the last lines with their keys when these are decimal numerals, without
leading zeros, of numbers below `2^64`; a field whose key does not occur keeps the value
it had before the pass. -/
theorem battery_scan_lines (lines : List (String × String)) (v : BatteryVars)
    (hwf : WellFormed lines) :
    batteryItem.scan (renderLines lines) v = assignAll lines v ∧
      (batteryItem.scan (renderLines lines) v).power_supply_status
        = (lastValue "POWER_SUPPLY_STATUS" lines).getD v.power_supply_status ∧
      ((lastValue "POWER_SUPPLY_CHARGE_NOW" lines = none →
          (batteryItem.scan (renderLines lines) v).power_supply_charge_now
            = v.power_supply_charge_now) ∧
        ∀ n, n < 2 ^ 64 → lastValue "POWER_SUPPLY_CHARGE_NOW" lines = some (Nat.repr n) →
          (batteryItem.scan (renderLines lines) v).power_supply_charge_now = n) ∧
      ((lastValue "POWER_SUPPLY_CURRENT_NOW" lines = none →
          (batteryItem.scan (renderLines lines) v).power_supply_current_now
            = v.power_supply_current_now) ∧
        ∀ n, n < 2 ^ 64 → lastValue "POWER_SUPPLY_CURRENT_NOW" lines = some (Nat.repr n) →
          (batteryItem.scan (renderLines lines) v).power_supply_current_now = n) ∧
      ((lastValue "POWER_SUPPLY_CHARGE_FULL" lines = none →
          (batteryItem.scan (renderLines lines) v).power_supply_charge_full
            = v.power_supply_charge_full) ∧
        ∀ n, n < 2 ^ 64 → lastValue "POWER_SUPPLY_CHARGE_FULL" lines = some (Nat.repr n) →
          (batteryItem.scan (renderLines lines) v).power_supply_charge_full = n) := by
  have h : batteryItem.scan (renderLines lines) v = assignAll lines v :=
    scanLoop_lines lines hwf [] "" v
  rw [h]
  exact ⟨rfl, assignAll_status v lines, assignAll_charge_now v lines,
    assignAll_current_now v lines, assignAll_charge_full v lines⟩

/-- C9, as the code has it, at a text of five lines: an ignored key, a value with `=`
in it, a charge given twice and no line for the full charge. -/
theorem battery_scan_lines_witness :
    batteryItem.scan ("POWER_SUPPLY_NAME=BAT0\nPOWER_SUPPLY_STATUS=Discharging\n" ++
        "POWER_SUPPLY_CHARGE_NOW=7\nPOWER_SUPPLY_MODEL_NAME=a=b\n" ++
        "POWER_SUPPLY_CHARGE_NOW=2345000\n").data ⟨1, 2, 3, "Unknown"⟩
      = ⟨2345000, 2, 3, "Discharging"⟩ :=
  (battery_scan_lines
    [("POWER_SUPPLY_NAME", "BAT0"), ("POWER_SUPPLY_STATUS", "Discharging"),
      ("POWER_SUPPLY_CHARGE_NOW", "7"), ("POWER_SUPPLY_MODEL_NAME", "a=b"),
      ("POWER_SUPPLY_CHARGE_NOW", "2345000")]
    ⟨1, 2, 3, "Unknown"⟩ (by decide)).1

/-- C9 as stated fails: the decimal number `18446744073709551616` on the line with key
`POWER_SUPPLY_CHARGE_NOW` does not fit a `uint64`; the scan reports an error and
charge-now keeps the value 5 it had before the pass. (And the digits `0100`, with a
leading zero, are read in base eight, as 64.) -/
theorem battery_scan_number_too_large :
    WellFormed [("POWER_SUPPLY_CHARGE_NOW", "18446744073709551616")] ∧
      lastValue "POWER_SUPPLY_CHARGE_NOW" [("POWER_SUPPLY_CHARGE_NOW", "18446744073709551616")]
        = some (Nat.repr 18446744073709551616) ∧
      (batteryItem.scan "POWER_SUPPLY_CHARGE_NOW=18446744073709551616\n".data
        ⟨5, 0, 100, "Full"⟩).power_supply_charge_now = 5 ∧
      (batteryItem.scan "POWER_SUPPLY_CHARGE_NOW=0100\n".data
        ⟨5, 0, 100, "Full"⟩).power_supply_charge_now = 64 := by
  decide

end Csm
